import Mathlib

/-!
Shallow embedding of the deenurp reference-sequence selection pipeline
(`deenurp/select.py` and `deenurp/subcommands/search_sequences.py`).

External bioinformatics tools (usearch, cmalign, refpkg building, pplacer,
guppy redup, rppr voronoi, esl-sfetch) and the external SQLite store are
black boxes; they are modelled as oracle functions collected in environment
structures (`ToolEnv`, `SearchEnv`, `DeenurpDB`).  Each model function
returns, besides its result, the list of external tools it invoked, so that
control-flow claims (what was invoked, what was skipped, what aborted) are
statable.  Python exceptions (`CalledProcessError` from
`subprocess.check_call`, `AssertionError`, `TypeError`/`ZeroDivisionError`
from arithmetic on `None`/zero, `KeyError` from dict lookup) are modelled
with `Except Err`.  Numeric weights are modelled as `ℚ`.
-/

/-- The external tools / external effects the pipeline can invoke. -/
inductive Tool
  | usearch
  | cmalign
  | refpkg
  | pplacer
  | guppyRedup
  | voronoi
  | eslSfetch
  | createDatabase
deriving DecidableEq, Repr

/-- Python exceptions that the modelled code can raise. -/
inductive Err
  | calledProcessError (t : Tool)
  | assertionError
  | typeError
  | zeroDivisionError
  | keyError
deriving DecidableEq, Repr

/-- The annotation keys the pipeline ever reads or writes on a
`Bio.SeqRecord.annotations` dict: per-sequence `weight`, and the
`cluster_name` / `weight_prop` attached to yielded references. -/
structure Annotations where
  weight : Option ℚ
  cluster_name : Option String
  weight_prop : Option ℚ
deriving DecidableEq, Repr

def Annotations.empty : Annotations := ⟨none, none, none⟩

/-- A `Bio.SeqRecord`: identifier, residues, annotations. -/
structure SeqRecord where
  id : String
  residues : String
  annotations : Annotations
deriving DecidableEq, Repr

/-- Embedding of `seqrecord(name, residues)` with no extra annotations. -/
def seqrecord (name : String) (residues : String) : SeqRecord :=
  ⟨name, residues, Annotations.empty⟩

/-- Opaque handle for a built reference package (`as_refpkg` result). -/
structure Refpkg where
  tag : Nat
deriving DecidableEq, Repr

/-- Opaque handle for a placement file (`.jplace`). -/
structure Jplace where
  tag : Nat
deriving DecidableEq, Repr

/-- Oracles for the external subprocess tools used by `select.py`.
An `Except.error` result models a non-zero exit status (raised by
`subprocess.check_call` as `CalledProcessError`) or any other fatal
tool failure. -/
structure ToolEnv where
  /-- Tool `usearch -cluster … -seedsout …`: the set of seed ids it reports. -/
  usearch : List SeqRecord → ℚ → Except Err (Finset String)
  /-- Tool `cmalign`: aligns a list of sequences. -/
  cmalign : List SeqRecord → Except Err (List SeqRecord)
  /-- Wrapper `as_refpkg`: builds a reference package from aligned references. -/
  refpkg : List SeqRecord → Except Err Refpkg
  /-- Tool `pplacer`: places the combined alignment onto the reference package. -/
  pplacer : Refpkg → List SeqRecord → Except Err Jplace
  /-- Tool `guppy_redup`: re-expands placements using the query redup file. -/
  guppy_redup : Jplace → List SeqRecord → Except Err Jplace
  /-- Tool `voronoi` (rppr voronoi): leaves to prune, given a target leaf count. -/
  voronoi : Jplace → Nat → Except Err (List String)
  /-- Tool `esl_sfetch`: fetch named sequences from a flat sequence file. -/
  esl_sfetch : String → List String → Except Err (List SeqRecord)

def DEFAULT_THREADS : Nat := 12

def CLUSTER_THRESHOLD : ℚ := 998 / 1000

/-- Embedding of `_cluster(sequences, threshold)`: run usearch over the
sequences, collect the reported seed ids `r`, and return
`[i for i in sequences if i.id in r]`.  A non-zero usearch exit aborts. -/
def _cluster (env : ToolEnv) (sequences : List SeqRecord) (threshold : ℚ) :
    Except Err (List SeqRecord) × List Tool :=
  match env.usearch sequences threshold with
  | .error e => (.error e, [Tool.usearch])
  | .ok r => (.ok (sequences.filter (fun i => decide (i.id ∈ r))), [Tool.usearch])

/-- The value returned by `select_sequences_for_cluster`: a Python `list`
of ids on the early-return path, a `frozenset` of ids on the
placement/pruning path. -/
inductive SelectResult
  | ids_list (ids : List String)
  | ids_set (ids : Finset String)
deriving DecidableEq

/-- Membership test `i.id in ref_names` for either shape of result. -/
def SelectResult.contains : SelectResult → String → Bool
  | .ids_list l, s => decide (s ∈ l)
  | .ids_set st, s => decide (s ∈ st)

/-- Cardinality of the collection of identifiers a `SelectResult` holds. -/
def SelectResult.idCard : SelectResult → Nat
  | .ids_list l => l.toFinset.card
  | .ids_set st => st.card

/-- Embedding of `select_sequences_for_cluster(ref_seqs, query_seqs,
keep_leaves)`.  Cluster the references; if at most `keep_leaves` remain,
return their ids as a list.  Otherwise align references and queries
together, build a refpkg from the aligned references, place, redup, ask
voronoi for `keep_leaves`-many leaves to keep (it reports the pruned
leaves), take the set difference, and `assert len(result) == keep_leaves`.
The second component is the sequence of external tools invoked. -/
def select_sequences_for_cluster (env : ToolEnv)
    (ref_seqs query_seqs : List SeqRecord) (keep_leaves : Nat) :
    Except Err SelectResult × List Tool :=
  match _cluster env ref_seqs CLUSTER_THRESHOLD with
  | (.error e, tr) => (.error e, tr)
  | (.ok refs, tr) =>
    if refs.length ≤ keep_leaves then
      (.ok (.ids_list (refs.map (fun i => i.id))), tr)
    else
      let c := refs ++ query_seqs
      let ref_ids : Finset String := (refs.map (fun i => i.id)).toFinset
      match env.cmalign c with
      | .error e => (.error e, tr ++ [Tool.cmalign])
      | .ok aligned =>
        match env.refpkg (aligned.filter (fun i => decide (i.id ∈ ref_ids))) with
        | .error e => (.error e, tr ++ [Tool.cmalign, Tool.refpkg])
        | .ok rp =>
          match env.pplacer rp aligned with
          | .error e => (.error e, tr ++ [Tool.cmalign, Tool.refpkg, Tool.pplacer])
          | .ok jplace =>
            match env.guppy_redup jplace query_seqs with
            | .error e =>
                (.error e, tr ++ [Tool.cmalign, Tool.refpkg, Tool.pplacer, Tool.guppyRedup])
            | .ok redup =>
              match env.voronoi redup keep_leaves with
              | .error e =>
                  (.error e, tr ++ [Tool.cmalign, Tool.refpkg, Tool.pplacer,
                    Tool.guppyRedup, Tool.voronoi])
              | .ok prune_leaves =>
                let result := ref_ids \ prune_leaves.toFinset
                if result.card = keep_leaves then
                  (.ok (.ids_set result), tr ++ [Tool.cmalign, Tool.refpkg, Tool.pplacer,
                    Tool.guppyRedup, Tool.voronoi])
                else
                  (.error .assertionError, tr ++ [Tool.cmalign, Tool.refpkg, Tool.pplacer,
                    Tool.guppyRedup, Tool.voronoi])

/-- Lookup semantics of a Python dict built from a pair list via
`dict(pairs)`: the value of the LAST binding of the key, `none` if absent. -/
def pydict_get (l : List (String × ℚ)) (k : String) : Option ℚ :=
  ((l.filter (fun p => decide (p.1 = k))).map (fun p => p.2)).getLast?

/-- Key iteration order of `dict(pairs)`: first-occurrence order of keys. -/
def pydict_keys (l : List (String × ℚ)) : List String :=
  l.foldl (fun acc p => if p.1 ∈ acc then acc else acc ++ [p.1]) []

/-- The external SQLite search database plus the file-backed inputs that
`choose_references` reads (`params`, the cluster-members CSV, the two
sequence flat files are only ever consulted through these fields). -/
structure DeenurpDB where
  /-- Result of `SELECT SUM(weight) FROM sequences`: `none` models SQL
  NULL (empty `sequences` table). -/
  sum_weight : Option ℚ
  /-- Rows of `vw_cluster_weights` in the order the
  `ORDER BY total_weight DESC` query returns them. -/
  cluster_weights : List (String × ℚ)
  /-- Rows of `cluster_hit_seqs`: query-sequence (name, weight) pairs
  joined for one cluster name. -/
  hit_seqs : String → List (String × ℚ)
  /-- Value of the fasta_file entry of `params`. -/
  fasta_file : String
  /-- Value of the ref_fasta entry of `params`. -/
  ref_fasta : String
  /-- Result of `fetch_cluster_members` on the ref_cluster_names entry
  of `params`: member reference-sequence names per cluster. -/
  cluster_members : String → List String

/-- Embedding of `get_total_weight(con)`. -/
def get_total_weight (db : DeenurpDB) : Option ℚ :=
  db.sum_weight

/-- Python division `w / total` where `total` came from a SQL `SUM`:
`None` raises `TypeError`, zero raises `ZeroDivisionError`. -/
def pydiv (w : ℚ) : Option ℚ → Except Err ℚ
  | none => .error .typeError
  | some t => if t = 0 then .error .zeroDivisionError else .ok (w / t)

/-- Embedding of `esl_sfetch_seqs(ref_fasta, cluster_members[cluster_name])`. -/
def fetch_cluster_refs (env : ToolEnv) (db : DeenurpDB) (cluster_name : String) :
    Except Err (List SeqRecord) :=
  env.esl_sfetch db.ref_fasta (db.cluster_members cluster_name)

/-- The loop that stores the weight annotation of every fetched query
sequence from the cluster_seq_names dict; a fetched id absent from the
dict raises `KeyError`. -/
def annotate_query_weights (hits : List (String × ℚ)) :
    List SeqRecord → Except Err (List SeqRecord)
  | [] => .ok []
  | q :: rest =>
    match pydict_get hits q.id with
    | none => .error .keyError
    | some w =>
      match annotate_query_weights hits rest with
      | .error e => .error e
      | .ok rest' =>
          .ok ({ q with annotations := { q.annotations with weight := some w } } :: rest')

/-- Embedding of `esl_sfetch_seqs(fasta_file, cluster_seq_names)`
followed by the weight-annotation loop: the query sequences of one
cluster as `select_sequences_for_cluster` receives them. -/
def cluster_query_records (env : ToolEnv) (db : DeenurpDB) (cluster_name : String) :
    Except Err (List SeqRecord) :=
  match env.esl_sfetch db.fasta_file (pydict_keys (db.hit_seqs cluster_name)) with
  | .error e => .error e
  | .ok qs => annotate_query_weights (db.hit_seqs cluster_name) qs

/-- Outcome of one iteration of the `choose_references` loop body.
`fail sel e`: an exception `e` escaped the body (`sel` records whether
the per-cluster selector had been invoked); `stop`: the
`min_cluster_prop` check broke out of the loop; `yields refs`: the body
yielded the annotated references `refs` and the loop continues. -/
inductive BodyOutcome
  | fail (sel : Bool) (e : Err)
  | stop
  | yields (refs : List SeqRecord)
deriving DecidableEq

/-- One iteration of the `for cluster_name, cluster_weight in cursor`
loop body of `choose_references` (source order: fetch hit seqs, fetch
member refs, fetch query seqs, annotate weights, threshold check with
`break`, per-cluster selection, filter + annotate + yield). -/
def choose_body (env : ToolEnv) (db : DeenurpDB) (total_weight : Option ℚ)
    (refs_per_cluster : Nat) (min_cluster_prop : ℚ)
    (cluster_name : String) (cluster_weight : ℚ) : BodyOutcome :=
  match fetch_cluster_refs env db cluster_name with
  | .error e => .fail false e
  | .ok cluster_refs =>
    match cluster_query_records env db cluster_name with
    | .error e => .fail false e
    | .ok query_seqs =>
      match pydiv cluster_weight total_weight with
      | .error e => .fail false e
      | .ok share =>
        if share < min_cluster_prop then .stop
        else
          match select_sequences_for_cluster env cluster_refs query_seqs refs_per_cluster with
          | (.error e, _) => .fail true e
          | (.ok ref_names, _) =>
            .yields ((cluster_refs.filter (fun i => ref_names.contains i.id)).map
              (fun r => { r with annotations :=
                { r.annotations with cluster_name := some cluster_name,
                                     weight_prop := some share } }))

/-- The observable behaviour of a full `choose_references` generator run:
the references yielded (in order), the exception that escaped (if any),
the `(name, weight)` rows whose body invoked the per-cluster selector,
and the rows whose loop body started at all. -/
structure ChooseResult where
  yielded : List SeqRecord
  error : Option Err
  selectedPairs : List (String × ℚ)
  visitedPairs : List (String × ℚ)
deriving DecidableEq, Repr

/-- The cluster loop of `choose_references`, recursing over the rows of
the `ORDER BY total_weight DESC` cursor. -/
def choose_loop (env : ToolEnv) (db : DeenurpDB) (total_weight : Option ℚ)
    (refs_per_cluster : Nat) (min_cluster_prop : ℚ) :
    List (String × ℚ) → ChooseResult
  | [] => ⟨[], none, [], []⟩
  | (cluster_name, cluster_weight) :: rest =>
    match choose_body env db total_weight refs_per_cluster min_cluster_prop
        cluster_name cluster_weight with
    | .fail sel e =>
        ⟨[], some e, if sel then [(cluster_name, cluster_weight)] else [],
          [(cluster_name, cluster_weight)]⟩
    | .stop => ⟨[], none, [], [(cluster_name, cluster_weight)]⟩
    | .yields refs =>
        let r := choose_loop env db total_weight refs_per_cluster min_cluster_prop rest
        ⟨refs ++ r.yielded, r.error, (cluster_name, cluster_weight) :: r.selectedPairs,
          (cluster_name, cluster_weight) :: r.visitedPairs⟩

/-- Embedding of `choose_references(deenurp_db, refs_per_cluster,
min_cluster_prop)`: read the total weight once, then run the cluster
loop over the descending-weight cursor rows. -/
def choose_references (env : ToolEnv) (db : DeenurpDB)
    (refs_per_cluster : Nat) (min_cluster_prop : ℚ) : ChooseResult :=
  choose_loop env db (get_total_weight db) refs_per_cluster min_cluster_prop
    db.cluster_weights

/-- Command-line arguments of the `search_sequences` subcommand. -/
structure SearchArgs where
  sequence_file : String
  output : String
  ref_database : String
  ref_meta : String
  ref_cluster_info : String
  /-- Option `--weights`: `none` when it is not declared. -/
  weights : Option String
  maxaccepts : Int
  maxrejects : Int
  search_identity : ℚ
deriving DecidableEq, Repr

/-- Oracles for the `deenurp.search` module functions the subcommand
calls (a module outside the embedded source set). -/
structure SearchEnv where
  /-- Function `search.dedup_info_to_counts`: parses the dedup file into
  a name-to-count mapping; `none` models a missing (`None`) result and
  `some []` an empty mapping, both falsy under `assert weights`. -/
  dedup_info_to_counts : String → Option (List (String × ℚ))
  /-- Function `search.create_database`. -/
  create_database : SearchArgs → Option (List (String × ℚ)) → Except Err Unit

/-- Embedding of `search_sequences.action(args)`: parse the declared
weights file if any, `assert weights` (fails on a missing or empty
mapping), then call `search.create_database`. -/
def action (env : SearchEnv) (args : SearchArgs) : Except Err Unit × List Tool :=
  match args.weights with
  | none => (env.create_database args none, [Tool.createDatabase])
  | some wf =>
    match env.dedup_info_to_counts wf with
    | none => (.error .assertionError, [])
    | some m =>
      if m.isEmpty then (.error .assertionError, [])
      else (env.create_database args (some m), [Tool.createDatabase])

/-! Concrete environments and inputs used to exercise the model. -/

/-- A sequence record with the given id and fixed residues. -/
def sr (n : String) : SeqRecord := seqrecord n "ACGT"

/-- A tool environment in which every external tool succeeds: usearch
reports `seeds`, cmalign returns its input unchanged, voronoi reports
`prune`, and esl_sfetch returns a record for every requested name. -/
def mkEnv (seeds : Finset String) (prune : List String) : ToolEnv where
  usearch := fun _ _ => .ok seeds
  cmalign := fun l => .ok l
  refpkg := fun _ => .ok ⟨0⟩
  pplacer := fun _ _ => .ok ⟨0⟩
  guppy_redup := fun j _ => .ok j
  voronoi := fun _ _ => .ok prune
  esl_sfetch := fun _ names => .ok (names.map (fun n => seqrecord n "ACGT"))

/-- A tool environment whose usearch invocation exits non-zero. -/
def envUsearchFail : ToolEnv :=
  { mkEnv ∅ [] with usearch := fun _ _ => .error (.calledProcessError .usearch) }

/-- The tool environment for the worked `choose_references` run. -/
def envW : ToolEnv := mkEnv {"r1"} []

/-- A two-cluster database: total weight 10, cluster `c1` of weight 6
and cluster `c2` of weight 1, one query hit of weight 2 per cluster,
one member reference `r1` per cluster. -/
def dbW : DeenurpDB where
  sum_weight := some 10
  cluster_weights := [("c1", 6), ("c2", 1)]
  hit_seqs := fun _ => [("q1", 2)]
  fasta_file := "q.fasta"
  ref_fasta := "r.fasta"
  cluster_members := fun _ => ["r1"]

/-- The same database with an empty `sequences` table (NULL total). -/
def dbNoW : DeenurpDB := { dbW with sum_weight := none }

/-- Concrete arguments for the `search_sequences` subcommand with a
declared weights file. -/
def argsW : SearchArgs :=
  ⟨"q.fasta", "out.db", "refs.fasta", "meta.csv", "clusters.csv",
    some "weights.csv", 5, 40, 97 / 100⟩

/-- A search environment whose dedup parse yields an empty mapping. -/
def searchEnvW : SearchEnv := ⟨fun _ => some [], fun _ _ => .ok ()⟩

/-! Helper lemmas about the embedded operations. -/

theorem _cluster_ok_inv {env : ToolEnv} {s : List SeqRecord} {th : ℚ}
    {refs : List SeqRecord} {tr : List Tool}
    (h : _cluster env s th = (.ok refs, tr)) :
    ∃ r, env.usearch s th = .ok r ∧
      refs = s.filter (fun i => decide (i.id ∈ r)) ∧ tr = [Tool.usearch] := by
  unfold _cluster at h
  cases hu : env.usearch s th with
  | error e => rw [hu] at h; simp at h
  | ok r =>
    rw [hu] at h
    simp only [Prod.mk.injEq, Except.ok.injEq] at h
    exact ⟨r, rfl, h.1.symm, h.2.symm⟩

theorem select_early_eq {env : ToolEnv} {rs : List SeqRecord}
    (qs : List SeqRecord) {keep_leaves : Nat} {refs : List SeqRecord} {tr0 : List Tool}
    (hc : _cluster env rs CLUSTER_THRESHOLD = (.ok refs, tr0))
    (hlen : refs.length ≤ keep_leaves) :
    select_sequences_for_cluster env rs qs keep_leaves
      = (.ok (.ids_list (refs.map (fun i => i.id))), [Tool.usearch]) := by
  obtain ⟨r, hu, hrefs, htr⟩ := _cluster_ok_inv hc
  subst htr
  unfold select_sequences_for_cluster
  rw [hc]
  simp [hlen]

/-- C3: if the reference set reduced by the clustering tool has size at
or below the keep-count, the selector returns exactly the identifiers of
the reduced set, unchanged and in order, and invokes none of the
alignment/placement/pruning tools (the invocation trace is just the
usearch call). -/
theorem select_early_return (env : ToolEnv) (rs qs : List SeqRecord)
    (keep_leaves : Nat) (refs : List SeqRecord) (tr0 : List Tool)
    (hc : _cluster env rs CLUSTER_THRESHOLD = (.ok refs, tr0))
    (hlen : refs.length ≤ keep_leaves) :
    select_sequences_for_cluster env rs qs keep_leaves
      = (.ok (.ids_list (refs.map (fun i => i.id))), [Tool.usearch]) ∧
    ∀ t ∈ (select_sequences_for_cluster env rs qs keep_leaves).2, t = Tool.usearch := by
  have h1 := select_early_eq qs hc hlen
  exact ⟨h1, by rw [h1]; simp⟩

/-- Witness for C3: a six-reference input that usearch reduces to the
single seed `a` is returned unchanged as `["a"]`, with only the usearch
invocation in the trace. -/
theorem select_early_return_witness :
    select_sequences_for_cluster (mkEnv {"a"} []) (List.map sr ["a","b","c","d","e","f"]) [] 5
      = (.ok (.ids_list ["a"]), [Tool.usearch]) :=
  (select_early_return (mkEnv {"a"} []) (List.map sr ["a","b","c","d","e","f"]) [] 5
    [sr "a"] [Tool.usearch] (by rfl) (by decide)).1

/-- C7: a non-zero exit of the usearch call raises immediately:
`_cluster` aborts with that error having invoked usearch exactly once
(never retried), and the selector propagates the same fatal error. -/
theorem usearch_failure_aborts (env : ToolEnv) (seqs qs : List SeqRecord)
    (keep_leaves : Nat) (e : Err)
    (he : env.usearch seqs CLUSTER_THRESHOLD = .error e) :
    _cluster env seqs CLUSTER_THRESHOLD = (.error e, [Tool.usearch]) ∧
    (_cluster env seqs CLUSTER_THRESHOLD).2.count Tool.usearch = 1 ∧
    select_sequences_for_cluster env seqs qs keep_leaves = (.error e, [Tool.usearch]) := by
  have h1 : _cluster env seqs CLUSTER_THRESHOLD = (.error e, [Tool.usearch]) := by
    unfold _cluster; rw [he]
  refine ⟨h1, by rw [h1]; rfl, ?_⟩
  unfold select_sequences_for_cluster
  rw [h1]

/-- Witness for C7: in an environment whose usearch exits non-zero, the
selector aborts with the process error after a single usearch call. -/
theorem usearch_failure_aborts_witness :
    select_sequences_for_cluster envUsearchFail [sr "a"] [] 5
      = (.error (.calledProcessError .usearch), [Tool.usearch]) :=
  (usearch_failure_aborts envUsearchFail [sr "a"] [] 5
    (.calledProcessError .usearch) (by rfl)).2.2

/-- C10: `_cluster` returns the sub-list of its input whose ids are
reported seeds (membership in input, order preserved); when the
reported seeds are drawn from the input ids, the returned identifiers
are exactly the reported seeds; and on the early-return path of the
selector the ids come back in that original input order. -/
theorem cluster_sublist_seeds (env : ToolEnv) (sequences qs : List SeqRecord)
    (threshold : ℚ) (keep_leaves : Nat) (r : Finset String)
    (hr : env.usearch sequences threshold = .ok r) :
    (_cluster env sequences threshold).1
      = .ok (sequences.filter (fun i => decide (i.id ∈ r))) ∧
    (sequences.filter (fun i => decide (i.id ∈ r))).Sublist sequences ∧
    (∀ i ∈ sequences.filter (fun i => decide (i.id ∈ r)), i ∈ sequences) ∧
    ((∀ s ∈ r, ∃ i ∈ sequences, i.id = s) →
      ((sequences.filter (fun i => decide (i.id ∈ r))).map (fun i => i.id)).toFinset = r) ∧
    (threshold = CLUSTER_THRESHOLD →
      (sequences.filter (fun i => decide (i.id ∈ r))).length ≤ keep_leaves →
      select_sequences_for_cluster env sequences qs keep_leaves
        = (.ok (.ids_list ((sequences.filter (fun i => decide (i.id ∈ r))).map
            (fun i => i.id))), [Tool.usearch])) := by
  have h1 : _cluster env sequences threshold
      = (.ok (sequences.filter (fun i => decide (i.id ∈ r))), [Tool.usearch]) := by
    unfold _cluster; rw [hr]
  refine ⟨by rw [h1], List.filter_sublist _, fun i hi => List.mem_of_mem_filter hi, ?_, ?_⟩
  · intro hsub
    ext x
    simp only [List.mem_toFinset, List.mem_map, List.mem_filter, decide_eq_true_eq]
    constructor
    · rintro ⟨i, ⟨_, hmem⟩, hid⟩
      exact hid ▸ hmem
    · intro hx
      obtain ⟨i, hi, hid⟩ := hsub x hx
      exact ⟨i, ⟨hi, hid ▸ hx⟩, hid⟩
  · intro hth hlen
    subst hth
    exact select_early_eq qs h1 hlen

/-- Witness for C10: with seeds `{a}` over input `[a, b]`, the filtered
result is a sub-list of the input and its identifier set is exactly the
seed set. -/
theorem cluster_sublist_seeds_witness :
    ((List.map sr ["a","b"]).filter
      (fun i => decide (i.id ∈ ({"a"} : Finset String)))).Sublist (List.map sr ["a","b"]) ∧
    (((List.map sr ["a","b"]).filter
      (fun i => decide (i.id ∈ ({"a"} : Finset String)))).map (fun i => i.id)).toFinset
        = {"a"} := by
  have h := cluster_sublist_seeds (mkEnv {"a"} []) (List.map sr ["a","b"]) []
    CLUSTER_THRESHOLD 5 {"a"} (by rfl)
  exact ⟨h.2.1, h.2.2.2.1 (by decide)⟩

theorem select_deep_eq {env : ToolEnv} {rs : List SeqRecord} (qs : List SeqRecord)
    {keep_leaves : Nat} {refs aligned : List SeqRecord} {tr0 : List Tool}
    {rp : Refpkg} {jp rd : Jplace} {prune : List String}
    (hc : _cluster env rs CLUSTER_THRESHOLD = (.ok refs, tr0))
    (hlen : keep_leaves < refs.length)
    (hcm : env.cmalign (refs ++ qs) = .ok aligned)
    (hrp : env.refpkg (aligned.filter
      (fun i => decide (i.id ∈ (refs.map (fun i => i.id)).toFinset))) = .ok rp)
    (hpp : env.pplacer rp aligned = .ok jp)
    (hgr : env.guppy_redup jp qs = .ok rd)
    (hv : env.voronoi rd keep_leaves = .ok prune) :
    select_sequences_for_cluster env rs qs keep_leaves
      = (if ((refs.map (fun i => i.id)).toFinset \ prune.toFinset).card = keep_leaves
          then .ok (.ids_set ((refs.map (fun i => i.id)).toFinset \ prune.toFinset))
          else .error .assertionError,
         [Tool.usearch, Tool.cmalign, Tool.refpkg, Tool.pplacer,
           Tool.guppyRedup, Tool.voronoi]) := by
  obtain ⟨r, hu, hrefs, htr⟩ := _cluster_ok_inv hc
  subst htr
  unfold select_sequences_for_cluster
  rw [hc]
  simp only [if_neg (Nat.not_le.mpr hlen)]
  simp only [hcm, hrp, hpp, hgr, hv]
  split <;> rfl

/-- C1 (amended): when the reference count after the clustering step
exceeds the keep-count, any successful return of the selector is a set
of exactly keep-count identifiers, all drawn from the original
reference set; and whenever the computed set difference has a
cardinality different from keep-count, the call fails with an
assertion error rather than recovering. -/
theorem select_keep_count (env : ToolEnv) (rs qs : List SeqRecord)
    (keep_leaves : Nat) (refs : List SeqRecord) (tr0 : List Tool)
    (hc : _cluster env rs CLUSTER_THRESHOLD = (.ok refs, tr0))
    (hlen : keep_leaves < refs.length) :
    (∀ res tr, select_sequences_for_cluster env rs qs keep_leaves = (.ok res, tr) →
      ∃ s : Finset String, res = .ids_set s ∧ s.card = keep_leaves ∧
        ∀ x ∈ s, x ∈ rs.map (fun i => i.id)) ∧
    (∀ (aligned : List SeqRecord) (rp : Refpkg) (jp rd : Jplace) (prune : List String),
      env.cmalign (refs ++ qs) = .ok aligned →
      env.refpkg (aligned.filter
        (fun i => decide (i.id ∈ (refs.map (fun i => i.id)).toFinset))) = .ok rp →
      env.pplacer rp aligned = .ok jp →
      env.guppy_redup jp qs = .ok rd →
      env.voronoi rd keep_leaves = .ok prune →
      ((refs.map (fun i => i.id)).toFinset \ prune.toFinset).card ≠ keep_leaves →
      (select_sequences_for_cluster env rs qs keep_leaves).1 = .error .assertionError) := by
  obtain ⟨r, hu, hrefs, htr⟩ := _cluster_ok_inv hc
  have hsub : ∀ x ∈ (refs.map (fun i => i.id)).toFinset, x ∈ rs.map (fun i => i.id) := by
    subst hrefs
    intro x hx
    simp only [List.mem_toFinset, List.mem_map, List.mem_filter] at hx ⊢
    obtain ⟨i, ⟨hi, _⟩, hid⟩ := hx
    exact ⟨i, hi, hid⟩
  constructor
  · intro res tr h
    subst htr
    unfold select_sequences_for_cluster at h
    rw [hc] at h
    simp only [if_neg (Nat.not_le.mpr hlen)] at h
    split at h
    · simp at h
    · split at h
      · simp at h
      · split at h
        · simp at h
        · split at h
          · simp at h
          · split at h
            · simp at h
            · split at h
              · next prune_leaves hprune hcard =>
                simp only [Prod.mk.injEq, Except.ok.injEq] at h
                refine ⟨(refs.map (fun i => i.id)).toFinset \ prune_leaves.toFinset,
                  h.1.symm, hcard, ?_⟩
                intro x hx
                exact hsub x (Finset.mem_sdiff.mp hx).1
              · simp at h
  · intro aligned rp jp rd prune hcm hrp hpp hgr hv hcard
    rw [select_deep_eq qs hc hlen hcm hrp hpp hgr hv]
    simp [if_neg hcard]

/-- Counterexample to C1 as stated: a call whose PRE-selection cluster
size (number of input reference sequences, here 6) exceeds the
keep-count 5, yet which returns successfully (no assertion failure)
with only 1 identifier, because the usearch reduction brought the set
to a single sequence and the early-return path skips the keep-count
machinery entirely. -/
theorem select_keep_count_counterexample :
    (List.map sr ["a","b","c","d","e","f"]).length = 6 ∧
    select_sequences_for_cluster (mkEnv {"a"} []) (List.map sr ["a","b","c","d","e","f"]) [] 5
      = (.ok (.ids_list ["a"]), [Tool.usearch]) ∧
    SelectResult.idCard (.ids_list ["a"]) = 1 ∧
    SelectResult.idCard (.ids_list ["a"]) ≠ 5 :=
  ⟨rfl, rfl, rfl, by decide⟩

/-- Witness for C1 (amended): three references clustered to two, with
keep-count 1, produce a returned set of exactly one identifier drawn
from the input reference ids. -/
theorem select_keep_count_witness :
    ∃ s : Finset String, SelectResult.ids_set {"b"} = .ids_set s ∧ s.card = 1 ∧
      ∀ x ∈ s, x ∈ (List.map sr ["a","b","c"]).map (fun i => i.id) :=
  (select_keep_count (mkEnv {"a","b"} ["a"]) (List.map sr ["a","b","c"]) [] 1
    (List.map sr ["a","b"]) [Tool.usearch] (by rfl) (by decide)).1
    (.ids_set {"b"}) [Tool.usearch, Tool.cmalign, Tool.refpkg, Tool.pplacer,
      Tool.guppyRedup, Tool.voronoi] (by rfl)

/-- Counterexample to C2 as stated: with original references
`[a, b, c, d]` reduced by clustering to `[a, b, c]` and prune list
`["a"]`, the selector returns `{b, c}` (clustered ids minus the prune
list), not `original_reference_ids \ prune_leaves`, which would be
`{b, c, d}`. -/
theorem select_result_clustered_sdiff_counterexample :
    (select_sequences_for_cluster (mkEnv {"a","b","c"} ["a"])
        (List.map sr ["a","b","c","d"]) [] 2).1
      = .ok (.ids_set {"b","c"}) ∧
    ((List.map sr ["a","b","c","d"]).map (fun i => i.id)).toFinset \ (["a"]).toFinset
      = {"b","c","d"} ∧
    ({"b","c"} : Finset String) ≠ {"b","c","d"} :=
  ⟨rfl, by decide, by decide⟩

/-- C2 (amended): when the reference set reduced by clustering still
exceeds the keep-count and the whole placement pipeline succeeds with a
prune list making the assertion pass, the selector returns exactly the
clustered (post-reduction) reference identifiers minus the
tool-reported prune list. -/
theorem select_result_clustered_sdiff (env : ToolEnv) (rs qs : List SeqRecord)
    (keep_leaves : Nat) (refs aligned : List SeqRecord) (tr0 : List Tool)
    (rp : Refpkg) (jp rd : Jplace) (prune : List String)
    (hc : _cluster env rs CLUSTER_THRESHOLD = (.ok refs, tr0))
    (hlen : keep_leaves < refs.length)
    (hcm : env.cmalign (refs ++ qs) = .ok aligned)
    (hrp : env.refpkg (aligned.filter
      (fun i => decide (i.id ∈ (refs.map (fun i => i.id)).toFinset))) = .ok rp)
    (hpp : env.pplacer rp aligned = .ok jp)
    (hgr : env.guppy_redup jp qs = .ok rd)
    (hv : env.voronoi rd keep_leaves = .ok prune)
    (hcard : ((refs.map (fun i => i.id)).toFinset \ prune.toFinset).card = keep_leaves) :
    (select_sequences_for_cluster env rs qs keep_leaves).1
      = .ok (.ids_set ((refs.map (fun i => i.id)).toFinset \ prune.toFinset)) := by
  rw [select_deep_eq qs hc hlen hcm hrp hpp hgr hv]
  simp [if_pos hcard]

/-- Witness for C2 (amended): the concrete run of the counterexample
environment matches the clustered-ids-minus-prune-list formula. -/
theorem select_result_clustered_sdiff_witness :
    (select_sequences_for_cluster (mkEnv {"a","b","c"} ["a"])
        (List.map sr ["a","b","c","d"]) [] 2).1
      = .ok (.ids_set (((List.map sr ["a","b","c"]).map (fun i => i.id)).toFinset
          \ (["a"] : List String).toFinset)) :=
  select_result_clustered_sdiff (mkEnv {"a","b","c"} ["a"]) (List.map sr ["a","b","c","d"]) []
    2 (List.map sr ["a","b","c"]) (List.map sr ["a","b","c"] ++ []) [Tool.usearch]
    ⟨0⟩ ⟨0⟩ ⟨0⟩ ["a"]
    (by rfl) (by decide) (by rfl) (by rfl) (by rfl) (by rfl) (by rfl) (by decide)

theorem choose_body_stop_inv {env : ToolEnv} {db : DeenurpDB} {tw : Option ℚ}
    {rpc : Nat} {minp : ℚ} {name : String} {w : ℚ}
    (h : choose_body env db tw rpc minp name w = .stop) :
    ∃ s, pydiv w tw = .ok s ∧ s < minp := by
  unfold choose_body at h
  cases hf : fetch_cluster_refs env db name with
  | error e => rw [hf] at h; simp at h
  | ok crefs =>
    rw [hf] at h
    cases hq : cluster_query_records env db name with
    | error e => rw [hq] at h; simp at h
    | ok qs =>
      rw [hq] at h
      cases hd : pydiv w tw with
      | error e => rw [hd] at h; simp at h
      | ok share =>
        rw [hd] at h
        dsimp only at h
        by_cases hlt : share < minp
        · exact ⟨share, rfl, hlt⟩
        · rw [if_neg hlt] at h
          rcases hsel : select_sequences_for_cluster env crefs qs rpc with ⟨res, tr⟩
          rw [hsel] at h
          cases res <;> simp at h

theorem choose_body_fail_true_inv {env : ToolEnv} {db : DeenurpDB} {tw : Option ℚ}
    {rpc : Nat} {minp : ℚ} {name : String} {w : ℚ} {e : Err}
    (h : choose_body env db tw rpc minp name w = .fail true e) :
    ∃ s, pydiv w tw = .ok s ∧ ¬ s < minp := by
  unfold choose_body at h
  cases hf : fetch_cluster_refs env db name with
  | error e0 => rw [hf] at h; simp at h
  | ok crefs =>
    rw [hf] at h
    cases hq : cluster_query_records env db name with
    | error e0 => rw [hq] at h; simp at h
    | ok qs =>
      rw [hq] at h
      cases hd : pydiv w tw with
      | error e0 => rw [hd] at h; simp at h
      | ok share =>
        rw [hd] at h
        dsimp only at h
        by_cases hlt : share < minp
        · rw [if_pos hlt] at h; simp at h
        · exact ⟨share, rfl, hlt⟩

theorem choose_body_yields_inv {env : ToolEnv} {db : DeenurpDB} {tw : Option ℚ}
    {rpc : Nat} {minp : ℚ} {name : String} {w : ℚ} {out : List SeqRecord}
    (h : choose_body env db tw rpc minp name w = .yields out) :
    ∃ crefs qs share names tr,
      fetch_cluster_refs env db name = .ok crefs ∧
      cluster_query_records env db name = .ok qs ∧
      pydiv w tw = .ok share ∧ ¬ share < minp ∧
      select_sequences_for_cluster env crefs qs rpc = (.ok names, tr) ∧
      out = (crefs.filter (fun i => names.contains i.id)).map
        (fun r => { r with annotations :=
          { r.annotations with cluster_name := some name, weight_prop := some share } }) := by
  unfold choose_body at h
  cases hf : fetch_cluster_refs env db name with
  | error e0 => rw [hf] at h; simp at h
  | ok crefs =>
    rw [hf] at h
    cases hq : cluster_query_records env db name with
    | error e0 => rw [hq] at h; simp at h
    | ok qs =>
      rw [hq] at h
      cases hd : pydiv w tw with
      | error e0 => rw [hd] at h; simp at h
      | ok share =>
        rw [hd] at h
        dsimp only at h
        by_cases hlt : share < minp
        · rw [if_pos hlt] at h; simp at h
        · rw [if_neg hlt] at h
          rcases hsel : select_sequences_for_cluster env crefs qs rpc with ⟨res, tr⟩
          rw [hsel] at h
          cases res with
          | error e0 => simp at h
          | ok names =>
            simp only [BodyOutcome.yields.injEq] at h
            exact ⟨crefs, qs, share, names, tr, rfl, rfl, rfl, hlt, hsel, h.symm⟩

theorem choose_loop_visited_sublist (env : ToolEnv) (db : DeenurpDB) (tw : Option ℚ)
    (rpc : Nat) (minp : ℚ) (l : List (String × ℚ)) :
    ((choose_loop env db tw rpc minp l).visitedPairs).Sublist l := by
  induction l with
  | nil => simp [choose_loop]
  | cons hd rest ih =>
    obtain ⟨name, w⟩ := hd
    unfold choose_loop
    cases hb : choose_body env db tw rpc minp name w with
    | fail sel e =>
      dsimp only
      exact List.singleton_sublist.mpr (List.mem_cons_self _ _)
    | stop =>
      dsimp only
      exact List.singleton_sublist.mpr (List.mem_cons_self _ _)
    | yields out =>
      dsimp only
      exact ih.cons₂ (name, w)

theorem choose_loop_break (env : ToolEnv) (db : DeenurpDB) (tw : Option ℚ)
    (rpc : Nat) (minp : ℚ) (l : List (String × ℚ)) (c : String × ℚ)
    (hshare : ∃ s, pydiv c.2 tw = .ok s ∧ s < minp)
    (hmem : c ∈ (choose_loop env db tw rpc minp l).visitedPairs) :
    c ∉ (choose_loop env db tw rpc minp l).selectedPairs ∧
    ∃ l', (choose_loop env db tw rpc minp l).visitedPairs = l' ++ [c] ∧
      ∀ p ∈ (choose_loop env db tw rpc minp l).selectedPairs, p ∈ l' := by
  obtain ⟨s, hs, hslt⟩ := hshare
  induction l with
  | nil => simp [choose_loop] at hmem
  | cons hd rest ih =>
    obtain ⟨name, w⟩ := hd
    unfold choose_loop at hmem ⊢
    cases hb : choose_body env db tw rpc minp name w with
    | fail sel e =>
      simp only [hb] at hmem ⊢
      obtain rfl : c = (name, w) := by simpa using hmem
      cases sel with
      | false => exact ⟨by simp, [], by simp, by simp⟩
      | true =>
        obtain ⟨s', hs', hnlt⟩ := choose_body_fail_true_inv hb
        injection hs.symm.trans hs' with hss
        exact absurd (hss ▸ hslt) hnlt
    | stop =>
      simp only [hb] at hmem ⊢
      obtain rfl : c = (name, w) := by simpa using hmem
      exact ⟨by simp, [], by simp, by simp⟩
    | yields out =>
      simp only [hb] at hmem ⊢
      have hcne : c ≠ (name, w) := by
        intro hceq
        obtain ⟨crefs, qs, s', names, tr, _, _, hs', hnlt, _, _⟩ := choose_body_yields_inv hb
        rw [hceq] at hs
        injection hs.symm.trans hs' with hss
        exact absurd (hss ▸ hslt) hnlt
      rcases List.mem_cons.mp hmem with hceq | hctail
      · exact absurd hceq hcne
      · obtain ⟨hnotsel, l', hvis, hsubsel⟩ := ih hctail
        refine ⟨?_, (name, w) :: l', ?_, ?_⟩
        · intro hcsel
          rcases List.mem_cons.mp hcsel with hceq | hcsel'
          · exact hcne hceq
          · exact hnotsel hcsel'
        · simp [hvis]
        · intro p hp
          rcases List.mem_cons.mp hp with rfl | hp'
          · exact List.mem_cons_self _ _
          · exact List.mem_cons_of_mem _ (hsubsel p hp')

theorem choose_loop_yield_src (env : ToolEnv) (db : DeenurpDB) (tw : Option ℚ)
    (rpc : Nat) (minp : ℚ) (l : List (String × ℚ)) (ref : SeqRecord)
    (h : ref ∈ (choose_loop env db tw rpc minp l).yielded) :
    ∃ p ∈ (choose_loop env db tw rpc minp l).selectedPairs,
      ∃ out, choose_body env db tw rpc minp p.1 p.2 = .yields out ∧ ref ∈ out := by
  induction l with
  | nil => simp [choose_loop] at h
  | cons hd rest ih =>
    obtain ⟨name, w⟩ := hd
    unfold choose_loop at h ⊢
    cases hb : choose_body env db tw rpc minp name w with
    | fail sel e => simp only [hb] at h; simp at h
    | stop => simp only [hb] at h; simp at h
    | yields out =>
      simp only [hb] at h ⊢
      rcases List.mem_append.mp h with hout | htail
      · exact ⟨(name, w), List.mem_cons_self _ _, out, hb, hout⟩
      · obtain ⟨p, hp, out', hb', href⟩ := ih htail
        exact ⟨p, List.mem_cons_of_mem _ hp, out', hb', href⟩

/-- C4: once the weight share of a visited cluster is below the configured
minimum proportion, iteration stops entirely: that cluster is never
selected-from, it is the last cluster whose loop body ran (the loop
breaks rather than skipping and continuing), and every selected-from
cluster strictly precedes it. -/
theorem choose_below_min_prop_breaks (env : ToolEnv) (db : DeenurpDB)
    (refs_per_cluster : Nat) (min_cluster_prop : ℚ) (c : String × ℚ)
    (hmem : c ∈ (choose_references env db refs_per_cluster min_cluster_prop).visitedPairs)
    (hshare : ∃ s, pydiv c.2 (get_total_weight db) = .ok s ∧ s < min_cluster_prop) :
    c ∉ (choose_references env db refs_per_cluster min_cluster_prop).selectedPairs ∧
    ∃ l', (choose_references env db refs_per_cluster min_cluster_prop).visitedPairs
        = l' ++ [c] ∧
      ∀ p ∈ (choose_references env db refs_per_cluster min_cluster_prop).selectedPairs,
        p ∈ l' :=
  choose_loop_break env db (get_total_weight db) refs_per_cluster min_cluster_prop
    db.cluster_weights c hshare hmem

/-- C5: when the cluster rows come back from the store in descending
weight order (the SQL `ORDER BY total_weight DESC` contract) and the
total weight is a positive value, the clusters processed by
`choose_references` are visited in non-increasing order of weight
share. -/
theorem choose_processing_antitone (env : ToolEnv) (db : DeenurpDB)
    (refs_per_cluster : Nat) (min_cluster_prop : ℚ) (T : ℚ)
    (hsorted : List.Pairwise (fun a b : String × ℚ => b.2 ≤ a.2) db.cluster_weights)
    (hT : get_total_weight db = some T) (hTpos : 0 < T) :
    List.Pairwise (fun a b : String × ℚ => b.2 / T ≤ a.2 / T)
      (choose_references env db refs_per_cluster min_cluster_prop).visitedPairs := by
  have hsub := choose_loop_visited_sublist env db (get_total_weight db)
    refs_per_cluster min_cluster_prop db.cluster_weights
  exact (hsorted.sublist hsub).imp (fun h => by gcongr)

/-- C8: every reference yielded by `choose_references` carries the
annotations `cluster_name` (the cluster it was selected from) and
`weight_prop` (the weight of that cluster divided by the total weight), and
its identifier is in the set returned by the per-cluster selector for
that cluster. -/
theorem choose_yield_annotated (env : ToolEnv) (db : DeenurpDB)
    (refs_per_cluster : Nat) (min_cluster_prop : ℚ) (ref : SeqRecord)
    (hy : ref ∈ (choose_references env db refs_per_cluster min_cluster_prop).yielded) :
    ∃ name w share crefs qs names tr,
      (name, w) ∈ (choose_references env db refs_per_cluster min_cluster_prop).selectedPairs ∧
      fetch_cluster_refs env db name = .ok crefs ∧
      cluster_query_records env db name = .ok qs ∧
      pydiv w (get_total_weight db) = .ok share ∧
      select_sequences_for_cluster env crefs qs refs_per_cluster = (.ok names, tr) ∧
      names.contains ref.id = true ∧
      ref.annotations.cluster_name = some name ∧
      ref.annotations.weight_prop = some share := by
  obtain ⟨p, hp, out, hb, href⟩ := choose_loop_yield_src env db (get_total_weight db)
    refs_per_cluster min_cluster_prop db.cluster_weights ref hy
  obtain ⟨crefs, qs, share, names, tr, hf, hq, hd, hnlt, hsel, hout⟩ :=
    choose_body_yields_inv hb
  subst hout
  simp only [List.mem_map, List.mem_filter] at href
  obtain ⟨orig, ⟨homem, hocont⟩, heq⟩ := href
  subst heq
  exact ⟨p.1, p.2, share, crefs, qs, names, tr, by simpa using hp, hf, hq, hd, hsel,
    hocont, rfl, rfl⟩

/-- C9: if the `sequences` table is empty (`SUM(weight)` is NULL) or the
total weight is zero, the very first loop iteration of
`choose_references` raises: nothing is yielded, no cluster is
selected-from, and only the body of the first cluster ran. -/
theorem choose_total_weight_guard (env : ToolEnv) (db : DeenurpDB)
    (refs_per_cluster : Nat) (min_cluster_prop : ℚ) (c : String × ℚ)
    (rest : List (String × ℚ))
    (hcl : db.cluster_weights = c :: rest)
    (htw : get_total_weight db = none ∨ get_total_weight db = some 0) :
    (choose_references env db refs_per_cluster min_cluster_prop).error.isSome = true ∧
    (choose_references env db refs_per_cluster min_cluster_prop).yielded = [] ∧
    (choose_references env db refs_per_cluster min_cluster_prop).selectedPairs = [] ∧
    (choose_references env db refs_per_cluster min_cluster_prop).visitedPairs = [c] := by
  have hdiv : ∀ (s w : ℚ), pydiv w (get_total_weight db) ≠ .ok s := by
    intro s w h
    rcases htw with h0 | h0 <;> rw [h0] at h <;> simp [pydiv] at h
  obtain ⟨name, w⟩ := c
  unfold choose_references
  rw [hcl]
  cases hb : choose_body env db (get_total_weight db) refs_per_cluster min_cluster_prop
      name w with
  | fail sel e =>
    cases sel with
    | false => simp [choose_loop, hb]
    | true =>
      obtain ⟨s, hs, _⟩ := choose_body_fail_true_inv hb
      exact absurd hs (hdiv s w)
  | stop =>
    obtain ⟨s, hs, _⟩ := choose_body_stop_inv hb
    exact absurd hs (hdiv s w)
  | yields out =>
    obtain ⟨crefs, qs, s, names, tr, _, _, hs, _, _, _⟩ := choose_body_yields_inv hb
    exact absurd hs (hdiv s w)

theorem bodyW_c1 : choose_body envW dbW (some 10) 5 (1/2) "c1" 6
    = .yields [⟨"r1", "ACGT", ⟨none, some "c1", some (6/10)⟩⟩] := by
  simp only [choose_body, fetch_cluster_refs, cluster_query_records, annotate_query_weights,
    pydict_get, pydict_keys, pydiv, select_sequences_for_cluster, _cluster, envW, mkEnv, dbW,
    sr, seqrecord, Annotations.empty, SelectResult.contains, CLUSTER_THRESHOLD, List.foldl,
    List.filter, List.map, List.getLast?]
  norm_num

theorem bodyW_c2 : choose_body envW dbW (some 10) 5 (1/2) "c2" 1 = .stop := by
  simp only [choose_body, fetch_cluster_refs, cluster_query_records, annotate_query_weights,
    pydict_get, pydict_keys, pydiv, envW, mkEnv, dbW, seqrecord, Annotations.empty,
    List.foldl, List.filter, List.map, List.getLast?]
  norm_num

theorem chooseW_eval : choose_references envW dbW 5 (1/2)
    = ⟨[⟨"r1", "ACGT", ⟨none, some "c1", some (6/10)⟩⟩], none, [("c1", 6)],
        [("c1", 6), ("c2", 1)]⟩ := by
  have h0 : get_total_weight dbW = some 10 := rfl
  have h1 : dbW.cluster_weights = [("c1", 6), ("c2", 1)] := rfl
  unfold choose_references
  rw [h0, h1]
  simp only [choose_loop, bodyW_c1, bodyW_c2, List.append_nil]

/-- Witness for C4: in the two-cluster database the light cluster `c2`
(share 1/10 below the 1/2 minimum) is the last visited cluster, is not
selected-from, and every selected cluster precedes it. -/
theorem choose_below_min_prop_breaks_witness :
    ("c2", (1:ℚ)) ∉ (choose_references envW dbW 5 (1/2)).selectedPairs ∧
    ∃ l', (choose_references envW dbW 5 (1/2)).visitedPairs = l' ++ [("c2", 1)] ∧
      ∀ p ∈ (choose_references envW dbW 5 (1/2)).selectedPairs, p ∈ l' :=
  choose_below_min_prop_breaks envW dbW 5 (1/2) ("c2", 1)
    (by rw [chooseW_eval]; simp)
    ⟨1/10, by norm_num [pydiv, get_total_weight, dbW], by norm_num⟩

/-- Witness for C5: the two-cluster database sorted by descending weight
is visited in non-increasing order of weight share. -/
theorem choose_processing_antitone_witness :
    List.Pairwise (fun a b : String × ℚ => b.2 / 10 ≤ a.2 / 10)
      (choose_references envW dbW 5 (1/2)).visitedPairs :=
  choose_processing_antitone envW dbW 5 (1/2) 10
    (by simp only [dbW]; norm_num [List.pairwise_cons]) (by rfl) (by norm_num)

/-- Witness for C8: the single yielded reference of the worked run
carries `cluster_name = c1` and `weight_prop = 6/10` and its id is in
the set the selector returned. -/
theorem choose_yield_annotated_witness :
    ∃ name w share crefs qs names tr,
      (name, w) ∈ (choose_references envW dbW 5 (1/2)).selectedPairs ∧
      fetch_cluster_refs envW dbW name = .ok crefs ∧
      cluster_query_records envW dbW name = .ok qs ∧
      pydiv w (get_total_weight dbW) = .ok share ∧
      select_sequences_for_cluster envW crefs qs 5 = (.ok names, tr) ∧
      names.contains (⟨"r1", "ACGT", ⟨none, some "c1", some (6/10)⟩⟩ : SeqRecord).id = true ∧
      (⟨"r1", "ACGT", ⟨none, some "c1", some (6/10)⟩⟩ : SeqRecord).annotations.cluster_name
        = some name ∧
      (⟨"r1", "ACGT", ⟨none, some "c1", some (6/10)⟩⟩ : SeqRecord).annotations.weight_prop
        = some share :=
  choose_yield_annotated envW dbW 5 (1/2) ⟨"r1", "ACGT", ⟨none, some "c1", some (6/10)⟩⟩
    (by rw [chooseW_eval]; simp)

/-- Witness for C9: with the `sequences` table empty (NULL total
weight), the run fails in the first iteration, yielding nothing. -/
theorem choose_total_weight_guard_witness :
    (choose_references envW dbNoW 5 0).error.isSome = true ∧
    (choose_references envW dbNoW 5 0).yielded = [] ∧
    (choose_references envW dbNoW 5 0).selectedPairs = [] ∧
    (choose_references envW dbNoW 5 0).visitedPairs = [("c1", 6)] :=
  choose_total_weight_guard envW dbNoW 5 0 ("c1", 6) [("c2", 1)] (by rfl) (.inl (by rfl))

/-- C6: in the `search_sequences` subcommand, a declared weights file
whose parse yields a missing or empty mapping makes the action fail
with an assertion error before `search.create_database` is ever
invoked. -/
theorem action_weights_guard (env : SearchEnv) (args : SearchArgs) (wf : String)
    (hw : args.weights = some wf)
    (hp : env.dedup_info_to_counts wf = none ∨ env.dedup_info_to_counts wf = some []) :
    action env args = (.error .assertionError, []) ∧
    Tool.createDatabase ∉ (action env args).2 := by
  have h : action env args = (.error .assertionError, []) := by
    unfold action
    rw [hw]
    dsimp only
    rcases hp with h0 | h0 <;> rw [h0] <;> simp
  exact ⟨h, by rw [h]; simp⟩

/-- Witness for C6: a declared weights file parsed to an empty mapping
aborts the action with the assertion error. -/
theorem action_weights_guard_witness :
    action searchEnvW argsW = (.error .assertionError, []) :=
  (action_weights_guard searchEnvW argsW "weights.csv" (by rfl) (.inr (by rfl))).1
